import Mathlib

/-!
Shallow embedding of the core of the hoot-keywords-api repository
(`src/app/search.py` and `src/app/downloader.py`) and verification of the
specified properties of its candidate-discovery pipeline and streaming
download proxy.

Python strings are modelled as `List Char` (`PyStr`) so that every string
operation is a structurally recursive, kernel-evaluable function.  The
string primitives the code uses — `startswith`, `endswith`, `lower`,
`strip`, `split(sep)[0]`, `split(sep)[-1]` — are given faithful models
below (`split(sep)[0]` is the prefix before the first separator,
`split(sep)[-1]` the suffix after the last one; the code only ever uses
these two projections of `split`).

Network effects are modelled by explicit outcome parameters: the search
backend, the page fetcher, the content-type prober and the download HEAD
request are each represented by the data the code observes from them
(`Except` for a backend that may raise, outcome inductives for HTTP
responses versus exceptions).  The download proxy additionally records an
event trace (session open/close, HEAD, GET) so that resource-release
properties can be stated.
-/

namespace Hoot

/-- A Python string, as its list of characters. -/
abbrev PyStr := List Char

/-- Coercion from a Lean string literal to the model. -/
def pyStr (s : String) : PyStr := s.data

/-! ## Python string primitives used by the code -/

/-- Python `s.startswith(p)`. -/
def strStartsWith : PyStr → PyStr → Bool
  | _, [] => true
  | [], _ :: _ => false
  | c :: s, p :: ps => c = p && strStartsWith s ps

/-- Python `s.endswith(p)`. -/
def strEndsWith (s p : PyStr) : Bool :=
  strStartsWith s.reverse p.reverse

/-- Lowercasing of one ASCII character, as Python `str.lower` acts on the
ASCII range (the only characters the code's URLs and headers carry). -/
def charLower (c : Char) : Char :=
  if 'A' ≤ c && c ≤ 'Z' then Char.ofNat (c.toNat + 32) else c

/-- Python `s.lower()`. -/
def strLower (s : PyStr) : PyStr := s.map charLower

/-- Python `s.split(sep)[0]` for a one-character separator: the part of
`s` before the first occurrence of `sep` (all of `s` if absent). -/
def beforeFirst (sep : Char) (s : PyStr) : PyStr :=
  s.takeWhile (· ≠ sep)

/-- Python `s.split(sep)[-1]` for a one-character separator: the part of
`s` after the last occurrence of `sep` (all of `s` if absent). -/
def afterLast (sep : Char) (s : PyStr) : PyStr :=
  (s.reverse.takeWhile (· ≠ sep)).reverse

/-- Python `s.strip(".")`: remove leading and trailing `.` characters. -/
def pyStripDots (s : PyStr) : PyStr :=
  ((s.dropWhile (· = '.')).reverse.dropWhile (· = '.')).reverse

/-- The ASCII whitespace characters stripped by Python `str.strip()`. -/
def isPySpace (c : Char) : Bool :=
  c = ' ' || c = '\t' || c = '\n' || c = '\x0d' || c = '\x0b' || c = '\x0c'

/-- Python `s.strip()`: remove leading and trailing whitespace. -/
def pyStripWS (s : PyStr) : PyStr :=
  ((s.dropWhile isPySpace).reverse.dropWhile isPySpace).reverse

/-- Python `" ".join(parts)`. -/
def joinSpace (parts : List PyStr) : PyStr :=
  List.intercalate [' '] parts

/-- The decimal rendering of a natural number, as Python string
interpolation renders `resp.status`. -/
def natToStr (n : Nat) : PyStr :=
  Nat.toDigits 10 n

/-! ## `search.py`: Link Classifier -/

/-- `url.startswith(ALLOWED_SCHEMES)` with
`ALLOWED_SCHEMES = ("http://", "https://")`. -/
def startsWithAllowedScheme (url : PyStr) : Bool :=
  strStartsWith url (pyStr "http://") || strStartsWith url (pyStr "https://")

/-- Embedding of `_is_direct_file_url` (`src/app/search.py`):
reject empty URLs and non-http(s) schemes, then test whether the
lowercased, query-stripped URL ends with `"." + ext.strip(".")` for some
allowed extension. -/
def isDirectFileUrl (url : PyStr) (preferred_extensions : List PyStr) : Bool :=
  if url.isEmpty || !(startsWithAllowedScheme url) then false
  else
    let lowered := strLower (beforeFirst '?' url)
    preferred_extensions.any (fun ext => strEndsWith lowered ('.' :: pyStripDots ext))

/-- The claim's reading of the classifier, written from the spec's words:
the scheme is `http`/`https` and the query-stripped URL ends
case-insensitively with `"." + e` for some extension `e` of the allowlist,
extensions being normalized to lowercase with no leading dot. -/
def specIsDirectFile (url : PyStr) (exts : List PyStr) : Bool :=
  startsWithAllowedScheme url &&
    exts.any (fun e =>
      strEndsWith (strLower (beforeFirst '?' url))
        ('.' :: strLower (e.dropWhile (· = '.'))))

/-! ## `search.py`: Content-Type Prober -/

/-- What the code can observe from `requests.head`: an exception
(timeout, connection error, ...) or a response carrying an optional
`Content-Type` header value. -/
inductive ProbeOutcome where
  | exn : ProbeOutcome
  | resp (contentType : Option PyStr) : ProbeOutcome
deriving DecidableEq, Repr

/-- Embedding of `_head_content_type` (`src/app/search.py`): `None` on any
exception or missing/empty header, else the header value truncated at the
first `;`, stripped and lowercased. -/
def headContentType (outcome : ProbeOutcome) : Option PyStr :=
  match outcome with
  | .exn => none
  | .resp none => none
  | .resp (some ctype) =>
      if ctype.isEmpty then none
      else some (strLower (pyStripWS (beforeFirst ';' ctype)))

/-! ## `search.py`: Page Link Extractor -/

/-- What the code can observe from `requests.get` of a page: an exception,
or a response with a status code whose parsed body yields a list of
`<a href>` targets (in document order). -/
inductive FetchOutcome where
  | exn : FetchOutcome
  | resp (status : Nat) (hrefs : List PyStr) : FetchOutcome
deriving DecidableEq, Repr

/-- `requests.Response.ok`: true exactly when the status code is below 400. -/
def responseOk (status : Nat) : Bool :=
  status < 400

/-- The network-location part of an http(s) URL: the characters after the
scheme separator up to the first `/`, `?` or `#`. -/
def urlNetloc (u : PyStr) : PyStr :=
  if strStartsWith u (pyStr "http://") then
    (u.drop 7).takeWhile (fun c => c ≠ '/' && c ≠ '?' && c ≠ '#')
  else if strStartsWith u (pyStr "https://") then
    (u.drop 8).takeWhile (fun c => c ≠ '/' && c ≠ '?' && c ≠ '#')
  else []

/-- The origin (`scheme://netloc`) of an http(s) URL. -/
def urlOrigin (u : PyStr) : PyStr :=
  if strStartsWith u (pyStr "http://") then pyStr "http://" ++ urlNetloc u
  else if strStartsWith u (pyStr "https://") then pyStr "https://" ++ urlNetloc u
  else u

/-- `urllib.parse.urljoin(base, href)` for the only shape the code feeds
it: a root-relative `href` (starting with `/`) against an http(s) base. -/
def urljoinRoot (base href : PyStr) : PyStr :=
  urlOrigin base ++ href

/-- The per-anchor normalization performed inside
`_extract_links_from_page`: absolute http(s) targets are kept, `//`
targets get `https:` prefixed, `/` targets are joined onto the base URL,
everything else is dropped. -/
def resolveHref (base href : PyStr) : Option PyStr :=
  if strStartsWith href (pyStr "http://") || strStartsWith href (pyStr "https://") then
    some href
  else if strStartsWith href (pyStr "//") then some (pyStr "https:" ++ href)
  else if strStartsWith href (pyStr "/") then some (urljoinRoot base href)
  else none

/-- Embedding of `_extract_links_from_page` (`src/app/search.py`): empty
list on any exception or non-ok status, else the resolved anchor targets. -/
def extractLinksFromPage (url : PyStr) (outcome : FetchOutcome) : List PyStr :=
  match outcome with
  | .exn => []
  | .resp status hrefs =>
      if !(responseOk status) then []
      else hrefs.filterMap (resolveHref url)

/-- The spec's resolution rule, written from its words: already-absolute
targets kept as-is; scheme-relative targets prefixed with `https:`;
root-relative targets resolved against the page's own origin; any other
relative form dropped. -/
def specResolveHref (base href : PyStr) : Option PyStr :=
  if strStartsWith href (pyStr "http://") then some href
  else if strStartsWith href (pyStr "https://") then some href
  else if strStartsWith href (pyStr "//") then some ('h' :: 't' :: 't' :: 'p' :: 's' :: ':' :: href)
  else if strStartsWith href (pyStr "/") then some (urlOrigin base ++ href)
  else none

/-! ## `search.py`: data model and Candidate Pipeline -/

/-- A raw search result as assembled by `_search_web`. -/
structure SearchHit where
  title : PyStr
  href : PyStr
  snippet : PyStr
deriving DecidableEq, Repr

/-- A discovered candidate, as the dicts built by
`perform_search_and_extract`.  `reason` carries the literal strings the
code uses: `"Matched by extension"` (spec: `MatchedResult`) and
`"Found on page"` (spec: `FoundOnPage`). -/
structure Candidate where
  title : PyStr
  source_page : PyStr
  direct_url : PyStr
  reason : PyStr
  content_type : PyStr
deriving DecidableEq, Repr

/-- The default `preferred_extensions` list of
`perform_search_and_extract`. -/
def DEFAULT_EXTENSIONS : List PyStr :=
  [pyStr "pdf", pyStr "zip", pyStr "mp3", pyStr "mp4", pyStr "docx", pyStr "xlsx",
   pyStr "pptx", pyStr "png", pyStr "jpg", pyStr "jpeg", pyStr "epub", pyStr "txt"]

/-- The enriched query: `query` with the space-joined `extra_terms`
appended after one space when `extra_terms` is non-empty. -/
def enrichedQuery (query : PyStr) (extra_terms : List PyStr) : PyStr :=
  if extra_terms ≠ [] then query ++ [' '] ++ joinSpace extra_terms
  else query

/-- Phase A of the pipeline: a candidate for each raw result whose `href`
passes the classifier, probed for its content type. -/
def phaseACandidates (probe : PyStr → Option PyStr)
    (preferred_extensions : List PyStr) (raw_results : List SearchHit) :
    List Candidate :=
  raw_results.filterMap (fun r =>
    if isDirectFileUrl r.href preferred_extensions then
      some { title := r.title, source_page := r.href, direct_url := r.href,
             reason := pyStr "Matched by extension",
             content_type := (probe r.href).getD [] }
    else none)

/-- Phase B of the pipeline: for each raw result with an http(s) `href`,
extract the links of its page and keep those passing the classifier. -/
def phaseBCandidates (extractLinks : PyStr → List PyStr)
    (probe : PyStr → Option PyStr)
    (preferred_extensions : List PyStr) (raw_results : List SearchHit) :
    List Candidate :=
  raw_results.flatMap (fun r =>
    if r.href.isEmpty || !(startsWithAllowedScheme r.href) then []
    else
      (extractLinks r.href).filterMap (fun link =>
        if isDirectFileUrl link preferred_extensions then
          some { title := r.title, source_page := r.href, direct_url := link,
                 reason := pyStr "Found on page",
                 content_type := (probe link).getD [] }
        else none))

/-- The final deduplication loop of `perform_search_and_extract`:
skip candidates whose `direct_url` is empty or already seen, keep the
rest in order. -/
def dedupCandidates (seen : List PyStr) : List Candidate → List Candidate
  | [] => []
  | c :: rest =>
      if c.direct_url.isEmpty || c.direct_url ∈ seen then dedupCandidates seen rest
      else c :: dedupCandidates (c.direct_url :: seen) rest

/-- The candidate list produced from a given list of raw search hits:
Phase A then Phase B, deduplicated by `direct_url`. -/
def pipelineCandidates (extractLinks : PyStr → List PyStr)
    (probe : PyStr → Option PyStr)
    (preferred_extensions : List PyStr) (raw_results : List SearchHit) :
    List Candidate :=
  dedupCandidates []
    (phaseACandidates probe preferred_extensions raw_results ++
     phaseBCandidates extractLinks probe preferred_extensions raw_results)

/-- Embedding of `perform_search_and_extract` (`src/app/search.py`).
`search` is the behaviour of `_search_web` (enriched query and
`max_results` in, either an exception or the list of hits out);
`extractLinks` and `probe` are the behaviours of
`_extract_links_from_page` and `_head_content_type` per URL.  The call to
`_search_web` is not guarded by any `try`, so a raising backend makes the
whole pipeline raise. -/
def performSearchAndExtract
    (search : PyStr → Nat → Except PyStr (List SearchHit))
    (extractLinks : PyStr → List PyStr)
    (probe : PyStr → Option PyStr)
    (query : PyStr)
    (extra_terms : Option (List PyStr))
    (preferred_extensions : Option (List PyStr))
    (max_results : Nat) :
    Except PyStr (List Candidate) :=
  let pext := preferred_extensions.getD DEFAULT_EXTENSIONS
  let terms := extra_terms.getD []
  match search (enrichedQuery query terms) max_results with
  | .error e => .error e
  | .ok raw_results =>
      .ok (pipelineCandidates extractLinks probe pext raw_results)

/-! ## `downloader.py`: streaming download proxy -/

/-- The module-level content-type allowlist `SAFE_CONTENT_TYPES` of
`src/app/downloader.py` (never read by any function of the module). -/
def SAFE_CONTENT_TYPES : List PyStr :=
  [ pyStr "application/pdf",
    pyStr "application/zip",
    pyStr "application/x-zip-compressed",
    pyStr "application/octet-stream",
    pyStr "audio/mpeg",
    pyStr "audio/mp3",
    pyStr "video/mp4",
    pyStr "application/vnd.openxmlformats-officedocument.wordprocessingml.document",
    pyStr "application/vnd.openxmlformats-officedocument.spreadsheetml.sheet",
    pyStr "application/vnd.openxmlformats-officedocument.presentationml.presentation",
    pyStr "image/png",
    pyStr "image/jpeg",
    pyStr "text/plain",
    pyStr "application/epub+zip" ]

/-- What the code can observe from `session.head`: an exception, or a
response with a status code and an optional `Content-Type` header. -/
inductive HeadOutcome where
  | exn : HeadOutcome
  | resp (status : Nat) (contentType : Option PyStr) : HeadOutcome
deriving DecidableEq, Repr

/-- Observable resource events of one `stream_file_download` invocation. -/
inductive Event where
  | openSession : Event
  | headRequest : Event
  | getRequest : Event
  | closeSession : Event
deriving DecidableEq, Repr

/-- A classified failure of the proxy: an `HTTPException` with its status
and detail, or a re-raised non-HTTP exception. -/
inductive DownloadFailure where
  | httpError (status : Nat) (detail : PyStr) : DownloadFailure
  | exn : DownloadFailure
deriving DecidableEq, Repr

/-- The `StreamingResponse` metadata the proxy hands back on success. -/
structure StreamingResp where
  media_type : PyStr
  disposition_name : PyStr
  content_disposition : PyStr
deriving DecidableEq, Repr

/-- The content-type computation of `stream_file_download`:
`head_resp.headers.get("Content-Type", "application/octet-stream")`
truncated at the first `;`, stripped, lowercased. -/
def negotiatedContentType (header : Option PyStr) : PyStr :=
  strLower (pyStripWS (beforeFirst ';' (header.getD (pyStr "application/octet-stream"))))

/-- The disposition-name computation of `stream_file_download`:
`url.split("/")[-1].split("?")[0] or "download"`. -/
def dispositionName (url : PyStr) : PyStr :=
  let name := beforeFirst '?' (afterLast '/' url)
  if name.isEmpty then pyStr "download" else name

/-- Embedding of `stream_file_download` (`src/app/downloader.py`) up to
the point where it returns: the scheme check (the same
`url.startswith("http://") or url.startswith("https://")` test the
search module performs), the session creation, the HEAD probe and the
construction of the `StreamingResponse`.  Alongside the result it
returns the resource events performed so far (on the success path the
session is still open, handed to the body iterator). -/
def streamFileDownload (url : PyStr) (head : HeadOutcome) :
    Except DownloadFailure StreamingResp × List Event :=
  if !(startsWithAllowedScheme url) then
    (.error (.httpError 400 (pyStr "Invalid URL scheme")), [])
  else
    match head with
    | .exn => (.error .exn, [.openSession, .headRequest, .closeSession])
    | .resp status contentType =>
        if status ≥ 400 then
          (.error (.httpError status (pyStr "Upstream status " ++ natToStr status)),
           [.openSession, .headRequest, .closeSession])
        else
          let ct := negotiatedContentType contentType
          let name := dispositionName url
          (.ok { media_type := if ct.isEmpty then pyStr "application/octet-stream" else ct,
                 disposition_name := name,
                 content_disposition := pyStr "attachment; filename=\"" ++ name ++ pyStr "\"" },
           [.openSession, .headRequest])

/-- How the consumption of the returned body iterator can end: the GET
body is streamed to completion, an exception (including an upstream
status ≥ 400 raised by `_stream_content`) unwinds through the generator,
or the caller abandons consumption mid-stream (the generator is closed
early). -/
inductive StreamEnd where
  | completed : StreamEnd
  | errored : StreamEnd
  | abandoned : StreamEnd
deriving DecidableEq, Repr

/-- The resource events of running the body iterator: the GET request is
issued, and the `finally` block closes the session no matter how the
iteration ends. -/
def consumeEvents (ending : StreamEnd) : List Event :=
  match ending with
  | .completed => [.getRequest, .closeSession]
  | .errored => [.getRequest, .closeSession]
  | .abandoned => [.getRequest, .closeSession]

/-- The complete event trace of one proxied download: the events of
`stream_file_download` itself, then — only when a `StreamingResponse` was
returned — the events of consuming its body iterator. -/
def downloadTrace (url : PyStr) (head : HeadOutcome) (ending : StreamEnd) :
    List Event :=
  match streamFileDownload url head with
  | (.error _, events) => events
  | (.ok _, events) => events ++ consumeEvents ending

/-- The spec's description of the disposition name: the last path segment
of the URL with any query string removed, with the fixed default name
`download` when that segment is empty. -/
def specDispositionName (url : PyStr) : PyStr :=
  match beforeFirst '?' (afterLast '/' url) with
  | [] => pyStr "download"
  | c :: rest => c :: rest

/-! ## Helper lemmas -/

theorem strStartsWith_nil_cons (p : Char) (ps : PyStr) :
    strStartsWith [] (p :: ps) = false := rfl

theorem startsWithAllowedScheme_nil : startsWithAllowedScheme [] = false := by decide

theorem ne_nil_of_scheme {u : PyStr} (h : startsWithAllowedScheme u = true) :
    u.isEmpty = false := by
  cases u with
  | nil => rw [startsWithAllowedScheme_nil] at h; exact absurd h (by decide)
  | cons c cs => rfl

theorem isDirectFileUrl_scheme {url : PyStr} {exts : List PyStr}
    (h : isDirectFileUrl url exts = true) : startsWithAllowedScheme url = true := by
  unfold isDirectFileUrl at h
  by_cases hs : startsWithAllowedScheme url = true
  · exact hs
  · exfalso
    have hs' : startsWithAllowedScheme url = false := Bool.eq_false_iff.mpr hs
    have hc : (url.isEmpty || !(startsWithAllowedScheme url)) = true := by
      rw [hs']; simp
    rw [if_pos hc] at h
    exact Bool.false_ne_true h

theorem dedupCandidates_sublist (seen : List PyStr) (l : List Candidate) :
    (dedupCandidates seen l).Sublist l := by
  induction l generalizing seen with
  | nil => simp [dedupCandidates]
  | cons d rest ih =>
      simp only [dedupCandidates]
      split
      · exact (ih seen).cons d
      · exact (ih _).cons₂ d

theorem mem_dedupCandidates {seen : List PyStr} {l : List Candidate} {c : Candidate}
    (h : c ∈ dedupCandidates seen l) :
    c ∈ l ∧ c.direct_url ∉ seen ∧ c.direct_url ≠ [] := by
  induction l generalizing seen with
  | nil => simp [dedupCandidates] at h
  | cons d rest ih =>
      simp only [dedupCandidates] at h
      split at h
      · obtain ⟨hmem, hns, hne⟩ := ih h
        exact ⟨List.mem_cons_of_mem _ hmem, hns, hne⟩
      · rename_i hcond
        rw [Bool.or_eq_true, not_or] at hcond
        obtain ⟨hne', hns'⟩ := hcond
        rcases List.mem_cons.mp h with hceq | hmem
        · subst hceq
          refine ⟨List.mem_cons_self _ _, ?_, ?_⟩
          · intro hin; exact hns' (by simpa using hin)
          · intro hnil
            exact hne' (by simp [hnil])
        · obtain ⟨hmem', hns, hne⟩ := ih hmem
          exact ⟨List.mem_cons_of_mem _ hmem',
                 fun hin => hns (List.mem_cons_of_mem _ hin), hne⟩

theorem dedupCandidates_nodup (seen : List PyStr) (l : List Candidate) :
    ((dedupCandidates seen l).map (fun c => c.direct_url)).Nodup := by
  induction l generalizing seen with
  | nil => simp [dedupCandidates]
  | cons d rest ih =>
      simp only [dedupCandidates]
      split
      · exact ih seen
      · simp only [List.map_cons, List.nodup_cons]
        refine ⟨?_, ih _⟩
        intro hin
        obtain ⟨c, hc, hceq⟩ := List.mem_map.mp hin
        obtain ⟨_, hns, _⟩ := mem_dedupCandidates hc
        exact hns (by rw [hceq]; exact List.mem_cons_self _ _)

theorem dedupCandidates_find? {seen : List PyStr} {l : List Candidate} {c : Candidate}
    (h : c ∈ dedupCandidates seen l) :
    l.find? (fun x => x.direct_url == c.direct_url) = some c := by
  induction l generalizing seen with
  | nil => simp [dedupCandidates] at h
  | cons d rest ih =>
      simp only [dedupCandidates] at h
      split at h
      · rename_i hcond
        obtain ⟨_, hns, hne⟩ := mem_dedupCandidates h
        have hd : (d.direct_url == c.direct_url) = false := by
          rw [beq_eq_false_iff_ne]
          intro he
          rw [Bool.or_eq_true] at hcond
          rcases hcond with h1 | h2
          · exact hne (by rw [← he]; simpa using h1)
          · exact hns (by rw [← he]; simpa using h2)
        simp only [List.find?_cons, hd]
        exact ih h
      · rcases List.mem_cons.mp h with hceq | hmem
        · subst hceq
          simp only [List.find?_cons, beq_self_eq_true]
        · obtain ⟨_, hns, _⟩ := mem_dedupCandidates hmem
          have hd : (d.direct_url == c.direct_url) = false := by
            rw [beq_eq_false_iff_ne]
            intro he
            exact hns (by rw [← he]; exact List.mem_cons_self _ _)
          simp only [List.find?_cons, hd]
          exact ih hmem

theorem dedupCandidates_covers {seen : List PyStr} {l : List Candidate} {u : PyStr}
    (hu : u ∉ seen) (hne : u ≠ [])
    (hex : ∃ c ∈ l, c.direct_url = u) :
    ∃ c ∈ dedupCandidates seen l, c.direct_url = u := by
  induction l generalizing seen with
  | nil => simp at hex
  | cons d rest ih =>
      obtain ⟨c, hc, hcu⟩ := hex
      simp only [dedupCandidates]
      rcases List.mem_cons.mp hc with hceq | hmem
      · subst hceq
        have hcond : (c.direct_url.isEmpty || decide (c.direct_url ∈ seen)) = false := by
          rw [hcu]; simp [hu, hne]
        rw [if_neg (by simp [hcond])]
        exact ⟨c, List.mem_cons_self _ _, hcu⟩
      · split
        · exact ih hu ⟨c, hmem, hcu⟩
        · by_cases hdu : d.direct_url = u
          · exact ⟨d, List.mem_cons_self _ _, hdu⟩
          · have hu' : u ∉ d.direct_url :: seen := by
              intro hin
              rcases List.mem_cons.mp hin with h1 | h2
              · exact hdu h1.symm
              · exact hu h2
            obtain ⟨c', hc', hcu'⟩ := ih hu' ⟨c, hmem, hcu⟩
            exact ⟨c', List.mem_cons_of_mem _ hc', hcu'⟩

theorem mem_phaseACandidates {probe : PyStr → Option PyStr} {pext : List PyStr}
    {hits : List SearchHit} {c : Candidate}
    (h : c ∈ phaseACandidates probe pext hits) :
    c.reason = pyStr "Matched by extension" ∧
    isDirectFileUrl c.direct_url pext = true ∧
    c.content_type = (probe c.direct_url).getD [] ∧
    c.source_page = c.direct_url := by
  obtain ⟨r, hr, hfr⟩ := List.mem_filterMap.mp h
  split at hfr
  · rename_i hcls
    cases hfr
    exact ⟨rfl, hcls, rfl, rfl⟩
  · cases hfr

theorem mem_phaseBCandidates {extract : PyStr → List PyStr}
    {probe : PyStr → Option PyStr} {pext : List PyStr}
    {hits : List SearchHit} {c : Candidate}
    (h : c ∈ phaseBCandidates extract probe pext hits) :
    c.reason = pyStr "Found on page" ∧
    isDirectFileUrl c.direct_url pext = true ∧
    c.content_type = (probe c.direct_url).getD [] := by
  obtain ⟨r, hr, hin⟩ := List.mem_flatMap.mp h
  split at hin
  · exact absurd hin (List.not_mem_nil c)
  · obtain ⟨link, hlink, hfl⟩ := List.mem_filterMap.mp hin
    split at hfl
    · rename_i hcls
      cases hfl
      exact ⟨rfl, hcls, rfl⟩
    · cases hfl

theorem phaseACandidates_map_url (probe : PyStr → Option PyStr) (pext : List PyStr)
    (hits : List SearchHit) :
    (phaseACandidates probe pext hits).map (fun c => c.direct_url) =
      hits.filterMap
        (fun r => if isDirectFileUrl r.href pext then some r.href else none) := by
  unfold phaseACandidates
  rw [List.map_filterMap]
  congr 1
  funext r
  cases hcls : isDirectFileUrl r.href pext <;> simp [hcls]

theorem phaseBCandidates_map_url (extract : PyStr → List PyStr)
    (probe : PyStr → Option PyStr) (pext : List PyStr) (hits : List SearchHit) :
    (phaseBCandidates extract probe pext hits).map (fun c => c.direct_url) =
      hits.flatMap (fun r =>
        if r.href.isEmpty || !(startsWithAllowedScheme r.href) then []
        else (extract r.href).filterMap
          (fun link => if isDirectFileUrl link pext then some link else none)) := by
  unfold phaseBCandidates
  rw [List.map_flatMap]
  congr 1
  funext r
  split
  · rfl
  · rw [List.map_filterMap]
    congr 1
    funext link
    cases hcls : isDirectFileUrl link pext <;> simp [hcls]

theorem dedupCandidates_map_url_congr :
    ∀ {l₁ l₂ : List Candidate} (seen : List PyStr),
      l₁.map (fun c => c.direct_url) = l₂.map (fun c => c.direct_url) →
      (dedupCandidates seen l₁).map (fun c => c.direct_url) =
        (dedupCandidates seen l₂).map (fun c => c.direct_url) := by
  intro l₁
  induction l₁ with
  | nil =>
      intro l₂ seen h
      cases l₂ with
      | nil => rfl
      | cons d t₂ => simp at h
  | cons c t ih =>
      intro l₂ seen h
      cases l₂ with
      | nil => simp at h
      | cons d t₂ =>
          simp only [List.map_cons, List.cons.injEq] at h
          obtain ⟨hurl, htails⟩ := h
          simp only [dedupCandidates]
          rw [hurl]
          split
          · exact ih seen htails
          · simp only [List.map_cons]
            rw [hurl, ih _ htails]

/-! ## Claim C1: search backend failure versus zero hits -/

/-- Claim C1, counterexample: a raising search backend does not yield an
empty candidate list — `perform_search_and_extract` propagates the
exception (its call to `_search_web` is not guarded), so adapter failure
and zero hits are not treated identically. -/
theorem C1_backend_raise_cex :
    performSearchAndExtract (fun _ _ => .error (pyStr "backend down"))
        (fun _ => []) (fun _ => none) (pyStr "q") none none 10
      = .error (pyStr "backend down") ∧
    Except.error (pyStr "backend down") ≠ (.ok [] : Except PyStr (List Candidate)) :=
  ⟨rfl, fun h => Except.noConfusion h⟩

/-- Claim C1 as amended: when the backend returns zero hits the pipeline
returns the empty candidate list, but when the backend raises, the
exception propagates out of `perform_search_and_extract` unchanged. -/
theorem C1_zero_hits_empty_raise_propagates
    (search : PyStr → Nat → Except PyStr (List SearchHit))
    (extract : PyStr → List PyStr) (probe : PyStr → Option PyStr)
    (query : PyStr) (extra_terms pext : Option (List PyStr)) (max_results : Nat) :
    (search (enrichedQuery query (extra_terms.getD [])) max_results = .ok [] →
      performSearchAndExtract search extract probe query extra_terms pext max_results
        = .ok []) ∧
    (∀ e, search (enrichedQuery query (extra_terms.getD [])) max_results = .error e →
      performSearchAndExtract search extract probe query extra_terms pext max_results
        = .error e) := by
  constructor
  · intro h
    simp only [performSearchAndExtract]
    rw [h]
    rfl
  · intro e h
    simp only [performSearchAndExtract]
    rw [h]

/-- Claim C1, witness: the amended theorem applied to a concrete zero-hit
backend and a concrete raising backend. -/
theorem C1_witness :
    performSearchAndExtract (fun _ _ => .ok []) (fun _ => []) (fun _ => none)
        (pyStr "q") none none 10 = .ok [] ∧
    performSearchAndExtract (fun _ _ => .error (pyStr "down")) (fun _ => [])
        (fun _ => none) (pyStr "q") none none 10 = .error (pyStr "down") :=
  ⟨(C1_zero_hits_empty_raise_propagates (fun _ _ => .ok []) (fun _ => [])
      (fun _ => none) (pyStr "q") none none 10).1 rfl,
   (C1_zero_hits_empty_raise_propagates (fun _ _ => .error (pyStr "down")) (fun _ => [])
      (fun _ => none) (pyStr "q") none none 10).2 (pyStr "down") rfl⟩

/-! ## Claim C2: deduplication by `direct_url` -/

/-- Claim C2: in the pipeline's output each `direct_url` occurs at most
once; the output is a sublist (order-preserving selection) of the
Phase-A-then-Phase-B concatenation; each kept candidate is the first
occurrence of its `direct_url` in that concatenation; every `direct_url`
of the concatenation survives; and when a Phase-A candidate carries a
URL, the kept candidate for that URL has reason `Matched by extension`. -/
theorem C2_dedup_first_occurrence_order (extract : PyStr → List PyStr)
    (probe : PyStr → Option PyStr) (pext : List PyStr) (hits : List SearchHit) :
    ((pipelineCandidates extract probe pext hits).map (fun c => c.direct_url)).Nodup ∧
    (pipelineCandidates extract probe pext hits).Sublist
      (phaseACandidates probe pext hits ++ phaseBCandidates extract probe pext hits) ∧
    (∀ c ∈ pipelineCandidates extract probe pext hits,
      (phaseACandidates probe pext hits ++ phaseBCandidates extract probe pext hits).find?
          (fun x => x.direct_url == c.direct_url) = some c) ∧
    (∀ c ∈ phaseACandidates probe pext hits ++ phaseBCandidates extract probe pext hits,
      ∃ c' ∈ pipelineCandidates extract probe pext hits, c'.direct_url = c.direct_url) ∧
    (∀ u, (∃ a ∈ phaseACandidates probe pext hits, a.direct_url = u) →
      ∀ c ∈ pipelineCandidates extract probe pext hits, c.direct_url = u →
        c.reason = pyStr "Matched by extension") := by
  refine ⟨dedupCandidates_nodup _ _, dedupCandidates_sublist _ _, ?_, ?_, ?_⟩
  · intro c hc
    exact dedupCandidates_find? hc
  · intro c hc
    have hurl : startsWithAllowedScheme c.direct_url = true := by
      rcases List.mem_append.mp hc with hA | hB
      · exact isDirectFileUrl_scheme (mem_phaseACandidates hA).2.1
      · exact isDirectFileUrl_scheme (mem_phaseBCandidates hB).2.1
    have hne : c.direct_url ≠ [] := by
      intro hnil
      rw [hnil, startsWithAllowedScheme_nil] at hurl
      exact Bool.false_ne_true hurl
    exact dedupCandidates_covers (by simp) hne ⟨c, hc, rfl⟩
  · rintro u ⟨a, ha, hau⟩ c hc hcu
    have hfind := dedupCandidates_find? hc
    rw [List.find?_append] at hfind
    have hA : ((phaseACandidates probe pext hits).find?
        (fun x => x.direct_url == c.direct_url)).isSome := by
      rw [List.find?_isSome]
      refine ⟨a, ha, ?_⟩
      rw [hau, hcu]
      exact beq_self_eq_true u
    obtain ⟨a', ha'⟩ := Option.isSome_iff_exists.mp hA
    rw [ha'] at hfind
    cases hfind
    exact (mem_phaseACandidates (List.mem_of_find?_eq_some ha')).1

/-- Claim C2, witness: on a concrete run in which the single hit is itself
a direct pdf link and its page also lists the same link, the output is
duplicate-free and the survivor carries reason `Matched by extension`. -/
theorem C2_witness :
    ((pipelineCandidates (fun _ => [pyStr "https://e.com/os.pdf"]) (fun _ => none)
        [pyStr "pdf"]
        [⟨pyStr "t", pyStr "https://e.com/os.pdf", pyStr "s"⟩]).map
          (fun c => c.direct_url)).Nodup ∧
    (⟨pyStr "t", pyStr "https://e.com/os.pdf", pyStr "https://e.com/os.pdf",
      pyStr "Matched by extension", []⟩ : Candidate).reason
      = pyStr "Matched by extension" :=
  ⟨(C2_dedup_first_occurrence_order (fun _ => [pyStr "https://e.com/os.pdf"])
      (fun _ => none) [pyStr "pdf"]
      [⟨pyStr "t", pyStr "https://e.com/os.pdf", pyStr "s"⟩]).1,
   (C2_dedup_first_occurrence_order (fun _ => [pyStr "https://e.com/os.pdf"])
      (fun _ => none) [pyStr "pdf"]
      [⟨pyStr "t", pyStr "https://e.com/os.pdf", pyStr "s"⟩]).2.2.2.2
      (pyStr "https://e.com/os.pdf")
      ⟨⟨pyStr "t", pyStr "https://e.com/os.pdf", pyStr "https://e.com/os.pdf",
         pyStr "Matched by extension", []⟩, by decide, by decide⟩
      _ (by decide) (by decide)⟩

/-! ## Claim C3: the Link Classifier -/

/-- Claim C3, counterexample: with the allowlist `["PDF"]` the claimed
case-insensitive, normalizing match accepts `https://x/a.pdf`, but the
code returns false — `_is_direct_file_url` strips dots from each
extension yet never lowercases it. -/
theorem C3_uppercase_extension_cex :
    isDirectFileUrl (pyStr "https://x/a.pdf") [pyStr "PDF"] = false ∧
    specIsDirectFile (pyStr "https://x/a.pdf") [pyStr "PDF"] = true := by
  decide

/-- Claim C3 as amended: the classifier returns true iff the URL has an
http or https scheme and the lowercased, query-stripped URL ends with
`"." + e'`, where `e'` is the extension with leading and trailing dots
stripped but its letter case kept (the match is case-insensitive in the
URL only); empty input and every other scheme yield false. -/
theorem C3_classifier_characterized (url : PyStr) (exts : List PyStr) :
    isDirectFileUrl url exts = true ↔
      (startsWithAllowedScheme url = true ∧
       ∃ e ∈ exts,
         strEndsWith (strLower (beforeFirst '?' url)) ('.' :: pyStripDots e) = true) := by
  constructor
  · intro h
    have hs := isDirectFileUrl_scheme h
    refine ⟨hs, ?_⟩
    simp only [isDirectFileUrl] at h
    rw [if_neg (by simp [ne_nil_of_scheme hs, hs])] at h
    simpa using List.any_eq_true.mp h
  · rintro ⟨hs, e, he, hend⟩
    simp only [isDirectFileUrl]
    rw [if_neg (by simp [ne_nil_of_scheme hs, hs])]
    exact List.any_eq_true.mpr ⟨e, he, hend⟩

/-- Claim C3, witness: the amended characterization applied to a concrete
accepted URL. -/
theorem C3_witness :
    startsWithAllowedScheme (pyStr "https://x/a.pdf") = true ∧
    ∃ e ∈ [pyStr "pdf"],
      strEndsWith (strLower (beforeFirst '?' (pyStr "https://x/a.pdf")))
        ('.' :: pyStripDots e) = true :=
  (C3_classifier_characterized (pyStr "https://x/a.pdf") [pyStr "pdf"]).mp (by decide)

/-! ## Claim C8: content-type probing is advisory -/

/-- Claim C8: the prober returns `None` (never raises) on exception or
missing header; every emitted candidate's `content_type` is exactly the
probe result with empty-string fallback; and the set and order of
returned `direct_url`s is independent of the probe function — probe
failure never removes a candidate. -/
theorem C8_probe_advisory :
    (headContentType .exn = none ∧ headContentType (.resp none) = none) ∧
    (∀ (extract : PyStr → List PyStr) (probe : PyStr → Option PyStr)
        (pext : List PyStr) (hits : List SearchHit),
      ∀ c ∈ pipelineCandidates extract probe pext hits,
        c.content_type = (probe c.direct_url).getD []) ∧
    (∀ (extract : PyStr → List PyStr) (p₁ p₂ : PyStr → Option PyStr)
        (pext : List PyStr) (hits : List SearchHit),
      (pipelineCandidates extract p₁ pext hits).map (fun c => c.direct_url) =
        (pipelineCandidates extract p₂ pext hits).map (fun c => c.direct_url)) := by
  refine ⟨⟨rfl, rfl⟩, ?_, ?_⟩
  · intro extract probe pext hits c hc
    have hmem := (mem_dedupCandidates hc).1
    rcases List.mem_append.mp hmem with hA | hB
    · exact (mem_phaseACandidates hA).2.2.1
    · exact (mem_phaseBCandidates hB).2.2
  · intro extract p₁ p₂ pext hits
    apply dedupCandidates_map_url_congr
    rw [List.map_append, List.map_append,
        phaseACandidates_map_url, phaseACandidates_map_url,
        phaseBCandidates_map_url, phaseBCandidates_map_url]

/-- Claim C8, witness: with a probe that always fails, the concrete
candidate of a concrete run still appears and carries the empty
`content_type`. -/
theorem C8_witness :
    (⟨pyStr "t", pyStr "https://e.com/os.pdf", pyStr "https://e.com/os.pdf",
      pyStr "Matched by extension", []⟩ : Candidate).content_type
      = ((fun _ => (none : Option PyStr)) (pyStr "https://e.com/os.pdf")).getD [] :=
  C8_probe_advisory.2.1 (fun _ => []) (fun _ => none) [pyStr "pdf"]
    [⟨pyStr "t", pyStr "https://e.com/os.pdf", pyStr "s"⟩] _ (by decide)

/-! ## Claim C6: extractor resilience -/

/-- Claim C6, counterexample: status 100 is neither 2xx nor 3xx, yet the
code treats it as success (`requests`' `response.ok` is `status < 400`)
and returns the page's links instead of the empty sequence. -/
theorem C6_informational_status_cex :
    (100 < 200 ∧ ¬ (200 ≤ 100 ∧ 100 ≤ 399)) ∧
    extractLinksFromPage (pyStr "https://h/p") (.resp 100 [pyStr "https://a/x.pdf"])
      = [pyStr "https://a/x.pdf"] ∧
    extractLinksFromPage (pyStr "https://h/p") (.resp 100 [pyStr "https://a/x.pdf"])
      ≠ [] := by
  refine ⟨by decide, by decide, by decide⟩

/-- Claim C6 as amended: `_extract_links_from_page` never raises — on any
exception it returns the empty sequence, every status of 400 or more is
treated as failure and also yields the empty sequence, and every status
below 400 (`requests`' `ok`) is treated as success. -/
theorem C6_extractor_never_raises (url : PyStr) :
    (extractLinksFromPage url .exn = []) ∧
    (∀ (status : Nat) (hrefs : List PyStr), 400 ≤ status →
      extractLinksFromPage url (.resp status hrefs) = []) ∧
    (∀ (status : Nat) (hrefs : List PyStr), status < 400 →
      extractLinksFromPage url (.resp status hrefs)
        = hrefs.filterMap (resolveHref url)) := by
  refine ⟨rfl, ?_, ?_⟩
  · intro status hrefs h
    have hlt : ¬ status < 400 := Nat.not_lt.mpr h
    simp [extractLinksFromPage, responseOk, hlt]
  · intro status hrefs h
    simp [extractLinksFromPage, responseOk, h]

/-- Claim C6, witness: the amended theorem applied to a concrete
exception and a concrete 500 response. -/
theorem C6_witness :
    extractLinksFromPage (pyStr "https://h/p") .exn = [] ∧
    extractLinksFromPage (pyStr "https://h/p") (.resp 500 [pyStr "https://a/x.pdf"])
      = [] :=
  ⟨(C6_extractor_never_raises (pyStr "https://h/p")).1,
   (C6_extractor_never_raises (pyStr "https://h/p")).2.1 500 [pyStr "https://a/x.pdf"]
     (by decide)⟩

/-! ## Claim C7: absolute-link resolution -/

theorem resolveHref_eq_spec (base href : PyStr) :
    resolveHref base href = specResolveHref base href := by
  simp only [resolveHref, specResolveHref, urljoinRoot]
  cases h1 : strStartsWith href (pyStr "http://") <;>
    cases h2 : strStartsWith href (pyStr "https://") <;>
      simp [h1, h2, pyStr]

/-- Claim C7: on a successfully fetched http(s) page, each hyperlink
target is resolved exactly as the spec describes — absolute http(s)
targets kept as-is, `//` targets prefixed with `https:`, `/` targets
resolved against the page's own origin, and every other relative form
dropped. -/
theorem C7_link_resolution (url : PyStr) (status : Nat) (hrefs : List PyStr)
    (hscheme : startsWithAllowedScheme url = true) (hok : status < 400) :
    extractLinksFromPage url (.resp status hrefs)
      = hrefs.filterMap (specResolveHref url) := by
  simp only [extractLinksFromPage]
  rw [if_neg (by simp [responseOk, hok])]
  congr 1
  funext href
  exact resolveHref_eq_spec url href

/-- Claim C7, witness: the resolution theorem applied to a concrete page
carrying one link of each shape. -/
theorem C7_witness :
    extractLinksFromPage (pyStr "https://h/d/p") (.resp 200
        [pyStr "https://a/x.pdf", pyStr "//c/y.pdf", pyStr "/z.pdf", pyStr "rel.pdf"])
      = [pyStr "https://a/x.pdf", pyStr "https://c/y.pdf", pyStr "https://h/z.pdf"] := by
  rw [C7_link_resolution (pyStr "https://h/d/p") 200 _ (by decide) (by decide)]
  decide

/-! ## Claim C4: download validation and probe failure -/

/-- Claim C4: a URL whose scheme is not http or https fails with the
HTTP-400 `InvalidInput` error regardless of what any probe would return
(no request is made, the trace is empty); and an upstream probe status of
400 or more fails with an upstream error carrying exactly that status,
with the session closed and the GET request never issued. -/
theorem C4_validation_and_probe_failure (url : PyStr) (head : HeadOutcome)
    (status : Nat) (ct : Option PyStr) :
    (startsWithAllowedScheme url = false →
      streamFileDownload url head
        = (.error (.httpError 400 (pyStr "Invalid URL scheme")), [])) ∧
    (startsWithAllowedScheme url = true → 400 ≤ status →
      streamFileDownload url (.resp status ct)
          = (.error (.httpError status (pyStr "Upstream status " ++ natToStr status)),
             [.openSession, .headRequest, .closeSession]) ∧
      Event.getRequest ∉ (streamFileDownload url (.resp status ct)).2 ∧
      Event.closeSession ∈ (streamFileDownload url (.resp status ct)).2) := by
  constructor
  · intro h
    simp [streamFileDownload, h]
  · intro hs h4
    have heq : streamFileDownload url (.resp status ct)
        = (.error (.httpError status (pyStr "Upstream status " ++ natToStr status)),
           [.openSession, .headRequest, .closeSession]) := by
      simp [streamFileDownload, hs, h4]
    refine ⟨heq, ?_, ?_⟩
    · rw [heq]
      show Event.getRequest ∉ [Event.openSession, Event.headRequest, Event.closeSession]
      decide
    · rw [heq]
      show Event.closeSession ∈ [Event.openSession, Event.headRequest, Event.closeSession]
      decide

/-- Claim C4, witness: the theorem applied to a concrete ftp URL and to a
concrete 404 probe. -/
theorem C4_witness :
    streamFileDownload (pyStr "ftp://x/f.pdf") (.resp 200 none)
      = (.error (.httpError 400 (pyStr "Invalid URL scheme")), []) ∧
    streamFileDownload (pyStr "https://h/a.pdf") (.resp 404 none)
      = (.error (.httpError 404 (pyStr "Upstream status " ++ natToStr 404)),
         [.openSession, .headRequest, .closeSession]) :=
  ⟨(C4_validation_and_probe_failure (pyStr "ftp://x/f.pdf") (.resp 200 none) 0 none).1
     (by decide),
   ((C4_validation_and_probe_failure (pyStr "https://h/a.pdf") (.resp 404 none)
       404 none).2 (by decide) (by decide)).1⟩

/-! ## Claim C5: disposition naming -/

theorem dispositionName_eq_spec (url : PyStr) :
    dispositionName url = specDispositionName url := by
  cases h : beforeFirst '?' (afterLast '/' url) <;>
    simp [dispositionName, specDispositionName, h]

/-- Claim C5: for every URL accepted by the proxy, the disposition name
of the returned response is the last path segment of the URL with any
query string removed, with the fixed default `download` when that
segment is empty, and the Content-Disposition attachment header carries
exactly that name. -/
theorem C5_disposition_name (url : PyStr) (status : Nat) (ct : Option PyStr)
    (hscheme : startsWithAllowedScheme url = true) (hstatus : status < 400) :
    ∃ resp : StreamingResp,
      streamFileDownload url (.resp status ct)
          = (.ok resp, [.openSession, .headRequest]) ∧
      resp.disposition_name = specDispositionName url ∧
      resp.content_disposition
        = pyStr "attachment; filename=\"" ++ specDispositionName url ++ pyStr "\"" := by
  have hnot : ¬ (400 ≤ status) := Nat.not_le.mpr hstatus
  refine ⟨⟨if (negotiatedContentType ct).isEmpty then pyStr "application/octet-stream"
             else negotiatedContentType ct,
           dispositionName url,
           pyStr "attachment; filename=\"" ++ dispositionName url ++ pyStr "\""⟩,
         ?_, ?_, ?_⟩
  · simp [streamFileDownload, hscheme, hnot]
  · exact dispositionName_eq_spec url
  · rw [dispositionName_eq_spec url]

/-- Claim C5, witness: the URL of the spec's example yields the
disposition name `report.pdf`. -/
theorem C5_witness :
    startsWithAllowedScheme (pyStr "https://host/path/report.pdf?x=1") = true ∧
    (∃ resp : StreamingResp,
      streamFileDownload (pyStr "https://host/path/report.pdf?x=1") (.resp 200 none)
          = (.ok resp, [.openSession, .headRequest]) ∧
      resp.disposition_name = pyStr "report.pdf") := by
  refine ⟨by decide, ?_⟩
  obtain ⟨resp, h1, h2, h3⟩ :=
    C5_disposition_name (pyStr "https://host/path/report.pdf?x=1") 200 none
      (by decide) (by decide)
  refine ⟨resp, h1, ?_⟩
  rw [h2]
  decide

/-! ## Claim C9: the session is released on every exit path -/

/-- Claim C9, counterexample: when scheme validation fails, the code
raises before ever creating the session, so on that exit path nothing is
opened and nothing is released — the connection is not "released exactly
once" there. -/
theorem C9_validation_failure_no_release_cex :
    (downloadTrace (pyStr "ftp://x/f.pdf") (.resp 200 none) .completed).count
        .closeSession = 0 ∧
    (downloadTrace (pyStr "ftp://x/f.pdf") (.resp 200 none) .completed).count
        .openSession = 0 := by
  decide

/-- Claim C9 as amended: on every exit path the number of session closes
equals the number of session opens (never more than one), and on every
path where the session is created — every valid-scheme URL, whether the
probe fails, streaming completes, an exception unwinds, or the caller
abandons consumption — it is released exactly once. -/
theorem C9_release_balanced (url : PyStr) (head : HeadOutcome) (ending : StreamEnd) :
    (downloadTrace url head ending).count .closeSession
        = (downloadTrace url head ending).count .openSession ∧
    (downloadTrace url head ending).count .openSession ≤ 1 ∧
    (startsWithAllowedScheme url = true →
      (downloadTrace url head ending).count .closeSession = 1) := by
  by_cases hs : startsWithAllowedScheme url = true
  · cases head with
    | exn =>
        have ht : downloadTrace url .exn ending
            = [.openSession, .headRequest, .closeSession] := by
          simp [downloadTrace, streamFileDownload, hs]
        rw [ht]
        exact ⟨by decide, by decide, fun _ => by decide⟩
    | resp status ct =>
        by_cases h4 : 400 ≤ status
        · have ht : downloadTrace url (.resp status ct) ending
              = [.openSession, .headRequest, .closeSession] := by
            simp [downloadTrace, streamFileDownload, hs, h4]
          rw [ht]
          exact ⟨by decide, by decide, fun _ => by decide⟩
        · have ht : downloadTrace url (.resp status ct) ending
              = [.openSession, .headRequest] ++ consumeEvents ending := by
            simp [downloadTrace, streamFileDownload, hs, h4]
          rw [ht]
          cases ending <;> exact ⟨by decide, by decide, fun _ => by decide⟩
  · have hs' : startsWithAllowedScheme url = false := Bool.eq_false_iff.mpr hs
    have ht : downloadTrace url head ending = [] := by
      simp [downloadTrace, streamFileDownload, hs']
    rw [ht]
    exact ⟨by decide, by decide, fun hcon => absurd hcon hs⟩

/-- Claim C9, witness: a concrete abandoned download releases the session
exactly once. -/
theorem C9_witness :
    (downloadTrace (pyStr "https://h/a.pdf") (.resp 200 none) .abandoned).count
        .closeSession = 1 :=
  (C9_release_balanced (pyStr "https://h/a.pdf") (.resp 200 none) .abandoned).2.2
    (by decide)

/-! ## Claim C10: no media-type restriction -/

theorem negotiatedContentType_none :
    negotiatedContentType none = pyStr "application/octet-stream" := by decide

/-- Claim C10: the proxy streams whatever media type the upstream
declares — for every header value (including every value outside
`SAFE_CONTENT_TYPES`) the probe-success path returns a streaming
response, and a missing Content-Type defaults to
`application/octet-stream`; the allowlist is never consulted. -/
theorem C10_content_type_unrestricted (url : PyStr) (status : Nat)
    (hscheme : startsWithAllowedScheme url = true) (hstatus : status < 400) :
    (∀ header : Option PyStr,
      ((streamFileDownload url (.resp status header)).1).isOk = true) ∧
    (∀ ct : PyStr, ct ∉ SAFE_CONTENT_TYPES →
      ((streamFileDownload url (.resp status (some ct))).1).isOk = true) ∧
    (∃ resp : StreamingResp,
      (streamFileDownload url (.resp status none)).1 = .ok resp ∧
      resp.media_type = pyStr "application/octet-stream") := by
  have hnot : ¬ (400 ≤ status) := Nat.not_le.mpr hstatus
  refine ⟨?_, ?_, ?_⟩
  · intro header
    simp [streamFileDownload, hscheme, hnot, Except.isOk, Except.toBool]
  · intro ct _
    simp [streamFileDownload, hscheme, hnot, Except.isOk, Except.toBool]
  · refine ⟨⟨pyStr "application/octet-stream", dispositionName url,
             pyStr "attachment; filename=\"" ++ dispositionName url ++ pyStr "\""⟩,
           ?_, rfl⟩
    have hempty : (negotiatedContentType (none : Option PyStr)).isEmpty = false := by
      decide
    simp [streamFileDownload, hscheme, hnot, hempty, negotiatedContentType_none]

/-- Claim C10, witness: a media type far outside the allowlist
(`text/html`) still yields a streaming response. -/
theorem C10_witness :
    ((streamFileDownload (pyStr "https://h/page.html")
        (.resp 200 (some (pyStr "text/html")))).1).isOk = true :=
  (C10_content_type_unrestricted (pyStr "https://h/page.html") 200
      (by decide) (by decide)).2.1 (pyStr "text/html") (by decide)

end Hoot
